import Mathlib

/-!
Shallow embedding of `src/app.py` (Healthguru): an in-memory chat session
store (three module-level Python dicts) together with the Flask route
handlers that mutate it.

Modelling choices, all taken from the source:
* Python dicts are insertion-ordered association lists with unique keys:
  `dictGet` finds the first binding, `dictInsert` updates an existing
  binding in place or appends a new one at the end (Python 3.7+ dict
  semantics), `dictErase` removes the binding.
* `time.time()` is an explicit `Nat` parameter `now` (only its ordering
  matters).
* The Gemini client is a `Bool` flag (`client = false` models the
  initialization failure that leaves the module-level `client = None`);
  the two `generate_content` calls are oracles passed as function
  parameters (`complete` for the chat call, `titleOracle` for the title
  call); an oracle returning `none` models the call raising an exception.
* `generate_chat_id()` is an explicit `String` parameter `newId` (the
  random draw is resolved by the environment).
* Python's `str.strip()` is `pyStrip` and `.replace('"', '')` is
  `stripQuotes`, both written over `List Char` so they reduce.
* The Python statement `history = chat_sessions[chat_id]` aliases the
  stored list, so every in-place `history.append`/`history.pop` in
  `chat_api` is reflected immediately into `chat_sessions` here.
-/
structure MsgPart where
  text : String
deriving DecidableEq

structure Content where
  role : String
  parts : List MsgPart
deriving DecidableEq

abbrev Dict (α : Type) := List (String × α)

def dictGet {α : Type} (d : Dict α) (k : String) : Option α :=
  match d with
  | [] => none
  | (k', v) :: rest => if k' = k then some v else dictGet rest k

def dictGetD {α : Type} (d : Dict α) (k : String) (dflt : α) : α :=
  (dictGet d k).getD dflt

def dictContains {α : Type} (d : Dict α) (k : String) : Bool :=
  (dictGet d k).isSome

def dictInsert {α : Type} (d : Dict α) (k : String) (v : α) : Dict α :=
  match d with
  | [] => [(k, v)]
  | (k', v') :: rest => if k' = k then (k, v) :: rest else (k', v') :: dictInsert rest k v

def dictErase {α : Type} (d : Dict α) (k : String) : Dict α :=
  match d with
  | [] => []
  | (k', v') :: rest => if k' = k then rest else (k', v') :: dictErase rest k

/-- Well-formedness of the dict model: keys are pairwise distinct, as in a
real Python dict. -/
def DictWF {α : Type} (d : Dict α) : Prop :=
  (d.map Prod.fst).Nodup

structure AppState where
  chat_sessions : Dict (List Content)
  chat_titles : Dict String
  chat_timestamps : Dict Nat
deriving DecidableEq

def isPySpace (c : Char) : Bool :=
  c = ' ' || c = '\t' || c = '\n' || c = '\r' || c = '\x0b' || c = '\x0c'

/-- Python `str.strip()`: drop leading and trailing whitespace. -/
def pyStrip (s : String) : String :=
  String.mk (((s.data.dropWhile isPySpace).reverse.dropWhile isPySpace).reverse)

/-- Python `str.replace('"', '')`: remove every double-quote character. -/
def stripQuotes (s : String) : String :=
  String.mk (s.data.filter (fun c => !(c = '"')))

/-- Embedding of `generate_title_from_message` (src/app.py lines 59-84).
The oracle stands for the `generate_content` title call: `some r` means the
call succeeded with `response.text = r`; `none` means it raised. -/
def generate_title_from_message (client : Bool) (titleOracle : String → Option String)
    (user_message : String) : String :=
  if client = false then
    "Untitled Chat"
  else
    match titleOracle user_message with
    | some rtext =>
        let title := stripQuotes (pyStrip rtext)
        if title.length > 0 then title else "New Health Query"
    | none => "New Health Query"

/-- Embedding of `save_chat_history` (src/app.py lines 87-105): store the
history, stamp the current time, and either regenerate the title (when it
is still the placeholder and the history ends in a model turn) or write the
passed title back. -/
def save_chat_history (client : Bool) (titleOracle : String → Option String) (now : Nat)
    (s : AppState) (chat_id : String) (history : List Content) (title : String) : AppState :=
  { chat_sessions := dictInsert s.chat_sessions chat_id history,
    chat_timestamps := dictInsert s.chat_timestamps chat_id now,
    chat_titles :=
      if title = "New Health Query" ∧ history.length > 1 ∧
          (history.getLastD (Content.mk "" [])).role = "model" then
        dictInsert s.chat_titles chat_id
          (generate_title_from_message client titleOracle
            (((history.headD (Content.mk "" [])).parts.headD (MsgPart.mk "")).text))
      else
        dictInsert s.chat_titles chat_id title }

/-- Embedding of the `new_chat` route (src/app.py lines 114-123): insert an
empty session, the placeholder title and the current timestamp under the
generated id, and return that id (the redirect target). -/
def new_chat (s : AppState) (newId : String) (now : Nat) : AppState × String :=
  ({ chat_sessions := dictInsert s.chat_sessions newId [],
     chat_titles := dictInsert s.chat_titles newId "New Health Query",
     chat_timestamps := dictInsert s.chat_timestamps newId now }, newId)

structure RecentChat where
  id : String
  title : String
  timestamp : Nat
deriving DecidableEq

/-- Stable descending insertion by timestamp: a new element goes after every
already-placed element whose timestamp is not strictly smaller, which is
exactly the tie behaviour of Python's stable `list.sort(key, reverse=True)`. -/
def insertByTsDesc (x : RecentChat) : List RecentChat → List RecentChat
  | [] => [x]
  | y :: ys => if y.timestamp < x.timestamp then x :: y :: ys else y :: insertByTsDesc x ys

def sortByTsDesc (l : List RecentChat) : List RecentChat :=
  l.foldl (fun acc x => insertByTsDesc x acc) []

/-- Embedding of `get_recent_chats` (src/app.py lines 46-57): iterate
`chat_titles` in insertion order, default a missing timestamp to 0, sort by
timestamp newest first (stable), and keep the first 10. -/
def get_recent_chats (s : AppState) : List RecentChat :=
  (sortByTsDesc (s.chat_titles.map
    (fun p => RecentChat.mk p.1 p.2 (dictGetD s.chat_timestamps p.1 0)))).take 10

inductive ChatApiResult where
  | ok (response : String) (chat_id : String)
  | err (status : Nat) (message : String)
deriving DecidableEq

/-- Text of a response content, as `response.text` concatenates the text
parts of the first candidate's content. -/
def respText (c : Content) : String :=
  String.join (c.parts.map MsgPart.text)

/-- Embedding of the `chat_api` route (src/app.py lines 145-200). The
`complete` oracle stands for the `generate_content` chat call: `some c`
means it succeeded with `response.candidates[0].content = c`; `none` means
it raised. `newId` is the value `generate_chat_id()` would return if
called. Note the aliasing: the appended user turn is visible in
`chat_sessions` before the client check and before the completion call. -/
def chat_api (client : Bool) (complete : List Content → Option Content)
    (titleOracle : String → Option String) (newId : String) (now : Nat)
    (s : AppState) (message : Option String) (chat_id_in : Option String) :
    AppState × ChatApiResult :=
  let user_message := pyStrip (message.getD "")
  if user_message = "" then
    (s, ChatApiResult.err 400 "Message cannot be empty")
  else
    let known := match chat_id_in with
      | some cid => dictContains s.chat_sessions cid
      | none => false
    let chat_id := if known then chat_id_in.getD "" else newId
    let s0 : AppState :=
      if known then s else
        { chat_sessions := dictInsert s.chat_sessions newId [],
          chat_titles := dictInsert s.chat_titles newId "New Health Query",
          chat_timestamps := dictInsert s.chat_timestamps newId now }
    let history1 := dictGetD s0.chat_sessions chat_id [] ++
      [Content.mk "user" [MsgPart.mk user_message]]
    let s1 : AppState := { s0 with chat_sessions := dictInsert s0.chat_sessions chat_id history1 }
    if client = false then
      (s1, ChatApiResult.err 500 "AI service not initialized.")
    else
      match complete history1 with
      | some content =>
        let history2 := history1 ++ [content]
        let s2 : AppState := { s1 with chat_sessions := dictInsert s1.chat_sessions chat_id history2 }
        (save_chat_history client titleOracle now s2 chat_id history2
           (dictGetD s2.chat_titles chat_id "New Health Query"),
         ChatApiResult.ok (respText content) chat_id)
      | none =>
        ({ s1 with chat_sessions := dictInsert s1.chat_sessions chat_id history1.dropLast },
         ChatApiResult.err 500 "Failed to communicate with the AI model. Please try again.")

inductive DeleteResult where
  | success (next : Option String)
  | notFound
deriving DecidableEq

/-- Embedding of the `delete_chat` route (src/app.py lines 202-223): when
the id is a session key, remove it from all three dicts (the title and
timestamp removals are guarded in the source) and redirect either to the
newest remaining chat (`success (some id)`) or to a brand new one
(`success none`); otherwise report not-found and change nothing. -/
def delete_chat (s : AppState) (chat_id : String) : AppState × DeleteResult :=
  if dictContains s.chat_sessions chat_id then
    let s1 : AppState :=
      { chat_sessions := dictErase s.chat_sessions chat_id,
        chat_titles :=
          if dictContains s.chat_titles chat_id then dictErase s.chat_titles chat_id
          else s.chat_titles,
        chat_timestamps :=
          if dictContains s.chat_timestamps chat_id then dictErase s.chat_timestamps chat_id
          else s.chat_timestamps }
    match (get_recent_chats s1).head? with
    | some e => (s1, DeleteResult.success (some e.id))
    | none => (s1, DeleteResult.success none)
  else
    (s, DeleteResult.notFound)

def emptyState : AppState := ⟨[], [], []⟩

/-- States reachable from the empty store through the public route
handlers, for any environment (clock values, generated ids, oracle
behaviours, request payloads). -/
inductive Reachable : AppState → Prop where
  | init : Reachable emptyState
  | step_new : ∀ (s : AppState) (newId : String) (now : Nat),
      Reachable s → Reachable (new_chat s newId now).1
  | step_chat : ∀ (s : AppState) (client : Bool) (complete : List Content → Option Content)
      (titleOracle : String → Option String) (newId : String) (now : Nat)
      (message chat_id_in : Option String),
      Reachable s →
      Reachable (chat_api client complete titleOracle newId now s message chat_id_in).1
  | step_delete : ∀ (s : AppState) (chat_id : String),
      Reachable s → Reachable (delete_chat s chat_id).1

/-! Helper lemmas about the stable descending sort. -/
def tsGE (a b : RecentChat) : Prop := b.timestamp ≤ a.timestamp

def c4State : AppState :=
  AppState.mk [("a", [])] [("a", "New Health Query")] [("a", 0)]

def c1State : AppState :=
  AppState.mk [("a", [])] [("a", "New Health Query")] [("a", 0)]

def c2State : AppState :=
  AppState.mk [("a", [])] [("a", "New Health Query")] [("a", 5)]

def c3State : AppState :=
  AppState.mk
    [("a", [Content.mk "user" [MsgPart.mk "x"], Content.mk "model" [MsgPart.mk "y"]])]
    [("a", "My Topic")] [("a", 3)]

def c5WitState : AppState :=
  AppState.mk [("a", [Content.mk "user" [MsgPart.mk "q"]])] [("a", "Old")] [("a", 3)]

def c5CexState : AppState :=
  AppState.mk [("aaaaaaaaaa", [Content.mk "user" [MsgPart.mk "hello"]])]
    [("aaaaaaaaaa", "Old Title")] [("aaaaaaaaaa", 3)]

def c6StateA : AppState :=
  AppState.mk [("b", []), ("a", [])] [("b", "T"), ("a", "U")] [("b", 7), ("a", 7)]

def c6StateB : AppState :=
  AppState.mk [("a", []), ("b", [])] [("a", "U"), ("b", "T")] [("a", 7), ("b", 7)]

def c8WitState : AppState :=
  AppState.mk [("a", []), ("b", [])] [("a", "T")] []

def c8CexState : AppState :=
  AppState.mk [("a", [])] [] []

/-- State produced by a successful deletion: the id is removed from the
session dict unconditionally and from the title and timestamp dicts when
present, mirroring the guarded `del` statements of `delete_chat`. -/
def eraseAll (s : AppState) (cid : String) : AppState :=
  { chat_sessions := dictErase s.chat_sessions cid,
    chat_titles :=
      if dictContains s.chat_titles cid then dictErase s.chat_titles cid
      else s.chat_titles,
    chat_timestamps :=
      if dictContains s.chat_timestamps cid then dictErase s.chat_timestamps cid
      else s.chat_timestamps }

def c9WitState : AppState :=
  AppState.mk [("a", []), ("b", [])] [("a", "A"), ("b", "B")] [("a", 5), ("b", 9)]

/-! Definitions and lemmas for the round-trip claim. -/
def mkUserTurn (t : String) : Content := Content.mk "user" [MsgPart.mk t]

/-- Expected stored history after a sequence of successful submits: the
trimmed user messages interleaved with the completion responses, folded
exactly as `chat_api` extends the history. -/
def transcript (complete : List Content → Option Content) :
    List Content → List String → Option (List Content)
  | acc, [] => some acc
  | acc, m :: ms =>
    match complete (acc ++ [mkUserTurn (pyStrip m)]) with
    | none => none
    | some c => transcript complete (acc ++ [mkUserTurn (pyStrip m), c]) ms

/-- Iterated submits against one chat id: N successive POST /chat requests
carrying the messages of the list in order. -/
def runSubmits (complete : List Content → Option Content)
    (titleOracle : String → Option String) (newId : String) (now : Nat)
    (cid : String) : AppState → List String → AppState
  | s, [] => s
  | s, m :: ms =>
    runSubmits complete titleOracle newId now cid
      (chat_api true complete titleOracle newId now s (some m) (some cid)).1 ms

/-- Role-alternation check: user, model, user, model, ... starting with a
user turn. -/
def rolesAlternate : List Content → Bool
  | [] => true
  | [c] => c.role == "user"
  | u :: c :: rest => (u.role == "user") && (c.role == "model") && rolesAlternate rest

/-- Pairing check: the history is exactly the submitted (trimmed) user
texts in order, each immediately followed by a model-role turn. -/
def pairsMatch : List String → List Content → Bool
  | [], [] => true
  | m :: ms, u :: c :: rest =>
      (u == mkUserTurn (pyStrip m)) && (c.role == "model") && pairsMatch ms rest
  | _, _ => false

def c7State : AppState :=
  AppState.mk [("c", [])] [("c", "New Health Query")] [("c", 0)]

/-! Cross-map consistency invariant for the reachable states. -/
def StateWF (s : AppState) : Prop :=
  DictWF s.chat_sessions ∧ DictWF s.chat_titles ∧ DictWF s.chat_timestamps

def SameKeys (s : AppState) : Prop :=
  ∀ cid : String,
    ((dictGet s.chat_sessions cid).isSome ↔ (dictGet s.chat_titles cid).isSome) ∧
    ((dictGet s.chat_sessions cid).isSome ↔ (dictGet s.chat_timestamps cid).isSome)

def StoreInv (s : AppState) : Prop := StateWF s ∧ SameKeys s

/-! Helper lemmas about the dict model. -/
theorem dictGet_insert_self {α : Type} (d : Dict α) (k : String) (v : α) :
    dictGet (dictInsert d k v) k = some v := by
  induction d with
  | nil => simp [dictInsert, dictGet]
  | cons p rest ih =>
    obtain ⟨k', v'⟩ := p
    by_cases h : k' = k
    · simp [dictInsert, h, dictGet]
    · simp [dictInsert, h, dictGet, ih]

theorem dictGet_insert_ne {α : Type} (d : Dict α) (k : String) (v : α) (k' : String)
    (h : ¬ k' = k) : dictGet (dictInsert d k v) k' = dictGet d k' := by
  have h' : ¬ k = k' := fun hh => h hh.symm
  induction d with
  | nil => simp [dictInsert, dictGet, h']
  | cons p rest ih =>
    obtain ⟨k₀, v₀⟩ := p
    by_cases h₀ : k₀ = k
    · subst h₀
      simp [dictInsert, dictGet, h']
    · simp [dictInsert, h₀, dictGet, ih]

theorem isSome_dictGet_insert {α : Type} (d : Dict α) (k : String) (v : α) (k' : String) :
    (dictGet (dictInsert d k v) k').isSome ↔ (k' = k ∨ (dictGet d k').isSome) := by
  by_cases h : k' = k
  · subst h
    simp [dictGet_insert_self]
  · simp [dictGet_insert_ne d k v k' h, h]

theorem dictGet_erase_ne {α : Type} (d : Dict α) (k k' : String)
    (h : ¬ k' = k) : dictGet (dictErase d k) k' = dictGet d k' := by
  have h' : ¬ k = k' := fun hh => h hh.symm
  induction d with
  | nil => simp [dictErase]
  | cons p rest ih =>
    obtain ⟨k₀, v₀⟩ := p
    by_cases h₀ : k₀ = k
    · subst h₀
      simp [dictErase, dictGet, h']
    · simp [dictErase, h₀, dictGet, ih]

theorem dictGet_eq_none_of_not_memKeys {α : Type} (d : Dict α) (k : String)
    (h : ¬ k ∈ d.map Prod.fst) : dictGet d k = none := by
  induction d with
  | nil => simp [dictGet]
  | cons p rest ih =>
    obtain ⟨k₀, v₀⟩ := p
    simp only [List.map_cons, List.mem_cons, not_or] at h
    have h' : ¬ k₀ = k := fun hh => h.1 hh.symm
    simp [dictGet, h', ih h.2]

theorem dictGet_erase_self {α : Type} (d : Dict α) (k : String) (hwf : DictWF d) :
    dictGet (dictErase d k) k = none := by
  induction d with
  | nil => simp [dictErase, dictGet]
  | cons p rest ih =>
    obtain ⟨k₀, v₀⟩ := p
    rw [DictWF, List.map_cons, List.nodup_cons] at hwf
    by_cases h₀ : k₀ = k
    · subst h₀
      simp only [dictErase, if_pos rfl]
      exact dictGet_eq_none_of_not_memKeys rest k₀ hwf.1
    · simp [dictErase, h₀, dictGet, ih hwf.2]

theorem memKeys_dictInsert {α : Type} (d : Dict α) (k : String) (v : α) (k' : String) :
    k' ∈ (dictInsert d k v).map Prod.fst ↔ (k' = k ∨ k' ∈ d.map Prod.fst) := by
  induction d with
  | nil => simp [dictInsert]
  | cons p rest ih =>
    obtain ⟨k₀, v₀⟩ := p
    rw [dictInsert]
    by_cases h₀ : k₀ = k
    · subst h₀
      rw [if_pos rfl]
      simp only [List.map_cons, List.mem_cons]
      tauto
    · rw [if_neg h₀]
      simp only [List.map_cons, List.mem_cons, ih]
      tauto

theorem DictWF_insert {α : Type} (d : Dict α) (k : String) (v : α) (hwf : DictWF d) :
    DictWF (dictInsert d k v) := by
  induction d with
  | nil => simp [dictInsert, DictWF]
  | cons p rest ih =>
    obtain ⟨k₀, v₀⟩ := p
    rw [DictWF, List.map_cons, List.nodup_cons] at hwf
    by_cases h₀ : k₀ = k
    · subst h₀
      rw [DictWF, dictInsert, if_pos rfl, List.map_cons, List.nodup_cons]
      exact hwf
    · rw [DictWF, dictInsert, if_neg h₀, List.map_cons, List.nodup_cons]
      refine ⟨?_, ih hwf.2⟩
      intro hmem
      rcases (memKeys_dictInsert rest k v k₀).mp hmem with h | h
      · exact h₀ h
      · exact hwf.1 h

theorem memKeys_dictErase_sub {α : Type} (d : Dict α) (k : String) (k' : String) :
    k' ∈ (dictErase d k).map Prod.fst → k' ∈ d.map Prod.fst := by
  induction d with
  | nil => simp [dictErase]
  | cons p rest ih =>
    obtain ⟨k₀, v₀⟩ := p
    by_cases h₀ : k₀ = k
    · subst h₀
      simp only [dictErase, if_pos rfl, List.map_cons, List.mem_cons]
      tauto
    · simp only [dictErase, if_neg h₀, List.map_cons, List.mem_cons]
      tauto

theorem DictWF_erase {α : Type} (d : Dict α) (k : String) (hwf : DictWF d) :
    DictWF (dictErase d k) := by
  induction d with
  | nil => simp [dictErase, DictWF]
  | cons p rest ih =>
    obtain ⟨k₀, v₀⟩ := p
    rw [DictWF, List.map_cons, List.nodup_cons] at hwf
    by_cases h₀ : k₀ = k
    · subst h₀
      rw [dictErase, if_pos rfl]
      exact hwf.2
    · rw [DictWF, dictErase, if_neg h₀, List.map_cons, List.nodup_cons]
      exact ⟨fun hmem => hwf.1 (memKeys_dictErase_sub rest k k₀ hmem), ih hwf.2⟩

theorem isSome_dictGet_of_mem {α : Type} (d : Dict α) (k : String) (v : α)
    (h : (k, v) ∈ d) : (dictGet d k).isSome := by
  induction d with
  | nil => simp at h
  | cons p rest ih =>
    obtain ⟨k₀, v₀⟩ := p
    rcases List.mem_cons.mp h with h' | h'
    · rw [Prod.mk.injEq] at h'
      simp [dictGet, h'.1]
    · by_cases h₀ : k₀ = k
      · simp [dictGet, h₀]
      · simp [dictGet, h₀, ih h']

theorem mem_insertByTsDesc (x z : RecentChat) (l : List RecentChat) :
    z ∈ insertByTsDesc x l ↔ (z = x ∨ z ∈ l) := by
  induction l with
  | nil => simp [insertByTsDesc]
  | cons y ys ih =>
    by_cases hc : y.timestamp < x.timestamp
    · simp [insertByTsDesc, hc]
    · simp only [insertByTsDesc, if_neg hc, List.mem_cons, ih]
      tauto

theorem pairwise_insertByTsDesc (x : RecentChat) (l : List RecentChat)
    (h : l.Pairwise tsGE) : (insertByTsDesc x l).Pairwise tsGE := by
  induction l with
  | nil => simp [insertByTsDesc]
  | cons y ys ih =>
    rw [List.pairwise_cons] at h
    obtain ⟨hy, hys⟩ := h
    by_cases hc : y.timestamp < x.timestamp
    · rw [insertByTsDesc, if_pos hc, List.pairwise_cons]
      refine ⟨?_, List.pairwise_cons.mpr ⟨hy, hys⟩⟩
      intro z hz
      rcases List.mem_cons.mp hz with rfl | hz
      · exact le_of_lt hc
      · exact le_trans (hy z hz) (le_of_lt hc)
    · rw [insertByTsDesc, if_neg hc, List.pairwise_cons]
      refine ⟨?_, ih hys⟩
      intro z hz
      rcases (mem_insertByTsDesc x z ys).mp hz with rfl | hz
      · exact Nat.le_of_not_lt hc
      · exact hy z hz

theorem length_insertByTsDesc (x : RecentChat) (l : List RecentChat) :
    (insertByTsDesc x l).length = l.length + 1 := by
  induction l with
  | nil => simp [insertByTsDesc]
  | cons y ys ih =>
    by_cases hc : y.timestamp < x.timestamp
    · simp [insertByTsDesc, hc]
    · simp [insertByTsDesc, hc, ih]

theorem pairwise_foldl_insertByTsDesc (l : List RecentChat) :
    ∀ acc : List RecentChat, acc.Pairwise tsGE →
      (l.foldl (fun a x => insertByTsDesc x a) acc).Pairwise tsGE := by
  induction l with
  | nil => intro acc h; exact h
  | cons x xs ih =>
    intro acc h
    exact ih (insertByTsDesc x acc) (pairwise_insertByTsDesc x acc h)

theorem sortByTsDesc_pairwise (l : List RecentChat) : (sortByTsDesc l).Pairwise tsGE :=
  pairwise_foldl_insertByTsDesc l [] (by simp)

theorem mem_foldl_insertByTsDesc (l : List RecentChat) :
    ∀ (acc : List RecentChat) (z : RecentChat),
      z ∈ l.foldl (fun a x => insertByTsDesc x a) acc ↔ (z ∈ acc ∨ z ∈ l) := by
  induction l with
  | nil => intro acc z; simp
  | cons x xs ih =>
    intro acc z
    rw [List.foldl_cons, ih (insertByTsDesc x acc) z, mem_insertByTsDesc]
    simp only [List.mem_cons]
    tauto

theorem mem_sortByTsDesc (l : List RecentChat) (z : RecentChat) :
    z ∈ sortByTsDesc l ↔ z ∈ l := by
  rw [sortByTsDesc, mem_foldl_insertByTsDesc]
  simp

theorem length_foldl_insertByTsDesc (l : List RecentChat) :
    ∀ acc : List RecentChat,
      (l.foldl (fun a x => insertByTsDesc x a) acc).length = acc.length + l.length := by
  induction l with
  | nil => intro acc; simp
  | cons x xs ih =>
    intro acc
    rw [List.foldl_cons, ih (insertByTsDesc x acc), length_insertByTsDesc, List.length_cons]
    omega

theorem length_sortByTsDesc (l : List RecentChat) : (sortByTsDesc l).length = l.length := by
  rw [sortByTsDesc, length_foldl_insertByTsDesc]
  simp

/-! Path characterizations of `chat_api`, shared by the claim theorems. -/
theorem chat_api_empty (client : Bool) (complete : List Content → Option Content)
    (titleOracle : String → Option String) (newId : String) (now : Nat)
    (s : AppState) (message : Option String) (chat_id_in : Option String)
    (hm : pyStrip (message.getD "") = "") :
    chat_api client complete titleOracle newId now s message chat_id_in
      = (s, ChatApiResult.err 400 "Message cannot be empty") := by
  rw [chat_api.eq_def]
  simp [hm]

theorem chat_api_known_noclient (complete : List Content → Option Content)
    (titleOracle : String → Option String) (newId : String) (now : Nat)
    (s : AppState) (m cid : String) (h : List Content)
    (hcid : dictGet s.chat_sessions cid = some h) (hm : ¬ pyStrip m = "") :
    chat_api false complete titleOracle newId now s (some m) (some cid) =
      ({ s with chat_sessions :=
          (dictInsert s.chat_sessions cid
            (h ++ [Content.mk "user" [MsgPart.mk (pyStrip m)]])) },
       ChatApiResult.err 500 "AI service not initialized.") := by
  rw [chat_api]
  simp [dictContains, hcid, hm, dictGetD]

theorem chat_api_known_fail (complete : List Content → Option Content)
    (titleOracle : String → Option String) (newId : String) (now : Nat)
    (s : AppState) (m cid : String) (h : List Content)
    (hcid : dictGet s.chat_sessions cid = some h) (hm : ¬ pyStrip m = "")
    (hfail : complete (h ++ [Content.mk "user" [MsgPart.mk (pyStrip m)]]) = none) :
    chat_api true complete titleOracle newId now s (some m) (some cid) =
      ({ s with chat_sessions :=
          (dictInsert (dictInsert s.chat_sessions cid
            (h ++ [Content.mk "user" [MsgPart.mk (pyStrip m)]])) cid h) },
       ChatApiResult.err 500 "Failed to communicate with the AI model. Please try again.") := by
  rw [chat_api]
  simp [dictContains, hcid, hm, dictGetD, hfail]

theorem chat_api_known_success (complete : List Content → Option Content)
    (titleOracle : String → Option String) (newId : String) (now : Nat)
    (s : AppState) (m cid : String) (h : List Content) (c : Content)
    (hcid : dictGet s.chat_sessions cid = some h) (hm : ¬ pyStrip m = "")
    (hc : complete (h ++ [Content.mk "user" [MsgPart.mk (pyStrip m)]]) = some c) :
    chat_api true complete titleOracle newId now s (some m) (some cid) =
      (save_chat_history true titleOracle now
        { s with chat_sessions :=
            (dictInsert (dictInsert s.chat_sessions cid
              (h ++ [Content.mk "user" [MsgPart.mk (pyStrip m)]])) cid
              ((h ++ [Content.mk "user" [MsgPart.mk (pyStrip m)]]) ++ [c])) }
        cid ((h ++ [Content.mk "user" [MsgPart.mk (pyStrip m)]]) ++ [c])
        (dictGetD s.chat_titles cid "New Health Query"),
       ChatApiResult.ok (respText c) cid) := by
  rw [chat_api]
  simp [dictContains, hcid, hm, dictGetD, hc]

theorem chat_api_unknown_none (client : Bool) (complete : List Content → Option Content)
    (titleOracle : String → Option String) (newId : String) (now : Nat)
    (s : AppState) (m : String) (hm : ¬ pyStrip m = "") :
    chat_api client complete titleOracle newId now s (some m) none =
      chat_api client complete titleOracle newId now
        (AppState.mk (dictInsert s.chat_sessions newId [])
          (dictInsert s.chat_titles newId "New Health Query")
          (dictInsert s.chat_timestamps newId now)) (some m) (some newId) := by
  conv =>
    lhs
    rw [chat_api]
  conv =>
    rhs
    rw [chat_api]
  simp [dictContains, hm, dictGetD, dictGet_insert_self]

theorem chat_api_unknown_some (client : Bool) (complete : List Content → Option Content)
    (titleOracle : String → Option String) (newId : String) (now : Nat)
    (s : AppState) (m cid : String) (hm : ¬ pyStrip m = "")
    (hcid : dictGet s.chat_sessions cid = none) :
    chat_api client complete titleOracle newId now s (some m) (some cid) =
      chat_api client complete titleOracle newId now
        (AppState.mk (dictInsert s.chat_sessions newId [])
          (dictInsert s.chat_titles newId "New Health Query")
          (dictInsert s.chat_timestamps newId now)) (some m) (some newId) := by
  conv =>
    lhs
    rw [chat_api]
  conv =>
    rhs
    rw [chat_api]
  simp [dictContains, hcid, hm, dictGetD, dictGet_insert_self]

/-! Claim theorems. -/

/-- C4: a submit whose user text is empty after trimming (including a
missing message) is rejected with the validation error (HTTP 400,
"Message cannot be empty") and performs no mutation at all: the store is
returned exactly as it was, so no session is created and no turn is
appended. -/
theorem c4_empty_message_rejected (client : Bool) (complete : List Content → Option Content)
    (titleOracle : String → Option String) (newId : String) (now : Nat)
    (s : AppState) (message : Option String) (chat_id_in : Option String)
    (hm : pyStrip (message.getD "") = "") :
    chat_api client complete titleOracle newId now s message chat_id_in
      = (s, ChatApiResult.err 400 "Message cannot be empty") :=
  chat_api_empty client complete titleOracle newId now s message chat_id_in hm

theorem c4_empty_message_rejected_witness :
    chat_api true (fun _ => none) (fun _ => none) "b" 1 c4State (some "  ") (some "a")
      = (c4State, ChatApiResult.err 400 "Message cannot be empty") :=
  c4_empty_message_rejected true (fun _ => none) (fun _ => none) "b" 1 c4State
    (some "  ") (some "a") (by decide)

/-- C1 (amended): for a record holding K turns, a submit whose completion
invocation itself fails (the `generate_content` call raises) rolls the
record back to exactly K turns and returns the completion-failure error;
but when the completion client was never initialized the appended user turn
is NOT rolled back: the record is left with K+1 turns and a distinct
"AI service not initialized." error is returned. -/
theorem c1_rollback (complete : List Content → Option Content)
    (titleOracle : String → Option String) (newId : String) (now : Nat)
    (s : AppState) (cid m : String) (h : List Content) (K : Nat)
    (hcid : dictGet s.chat_sessions cid = some h) (hK : h.length = K)
    (hm : ¬ pyStrip m = "")
    (hfail : complete (h ++ [Content.mk "user" [MsgPart.mk (pyStrip m)]]) = none) :
    (dictGet ((chat_api true complete titleOracle newId now s (some m) (some cid)).1).chat_sessions cid
        = some h ∧
      h.length = K ∧
      (chat_api true complete titleOracle newId now s (some m) (some cid)).2 =
        ChatApiResult.err 500 "Failed to communicate with the AI model. Please try again.") ∧
    (dictGet ((chat_api false complete titleOracle newId now s (some m) (some cid)).1).chat_sessions cid
        = some (h ++ [Content.mk "user" [MsgPart.mk (pyStrip m)]]) ∧
      (h ++ [Content.mk "user" [MsgPart.mk (pyStrip m)]]).length = K + 1 ∧
      (chat_api false complete titleOracle newId now s (some m) (some cid)).2 =
        ChatApiResult.err 500 "AI service not initialized.") := by
  rw [chat_api_known_fail complete titleOracle newId now s m cid h hcid hm hfail,
    chat_api_known_noclient complete titleOracle newId now s m cid h hcid hm]
  refine ⟨⟨?_, hK, rfl⟩, ⟨?_, ?_, rfl⟩⟩
  · exact dictGet_insert_self _ cid h
  · exact dictGet_insert_self _ cid _
  · simp [hK]

theorem c1_rollback_witness :
    (dictGet ((chat_api true (fun _ => none) (fun _ => none) "b" 1 c1State
        (some "hi") (some "a")).1).chat_sessions "a" = some [] ∧
      ([] : List Content).length = 0 ∧
      (chat_api true (fun _ => none) (fun _ => none) "b" 1 c1State (some "hi") (some "a")).2 =
        ChatApiResult.err 500 "Failed to communicate with the AI model. Please try again.") ∧
    (dictGet ((chat_api false (fun _ => none) (fun _ => none) "b" 1 c1State
        (some "hi") (some "a")).1).chat_sessions "a"
        = some ([] ++ [Content.mk "user" [MsgPart.mk (pyStrip "hi")]]) ∧
      (([] : List Content) ++ [Content.mk "user" [MsgPart.mk (pyStrip "hi")]]).length = 0 + 1 ∧
      (chat_api false (fun _ => none) (fun _ => none) "b" 1 c1State (some "hi") (some "a")).2 =
        ChatApiResult.err 500 "AI service not initialized.") :=
  c1_rollback (fun _ => none) (fun _ => none) "b" 1 c1State "a" "hi" [] 0
    (by decide) (by decide) (by decide) (by decide)

/-- C1 counterexample: with the completion client never initialized
(`client = None` in the source), a submit against a record holding 0 turns
reports the initialization error but leaves the record with 1 turn — the
user turn is not rolled back, refuting the claim for this failure mode. -/
theorem c1_rollback_cex :
    dictGet (AppState.mk [("a", [])] [("a", "New Health Query")] [("a", 0)]).chat_sessions "a"
        = some [] ∧
    (chat_api false (fun _ => none) (fun _ => none) "b" 1
        (AppState.mk [("a", [])] [("a", "New Health Query")] [("a", 0)])
        (some "hi") (some "a")).2 = ChatApiResult.err 500 "AI service not initialized." ∧
    dictGet ((chat_api false (fun _ => none) (fun _ => none) "b" 1
        (AppState.mk [("a", [])] [("a", "New Health Query")] [("a", 0)])
        (some "hi") (some "a")).1).chat_sessions "a"
        = some [Content.mk "user" [MsgPart.mk "hi"]] := by
  decide

/-- C2 (amended): the stored per-chat timestamp is not a creation time.
Every successful submit runs `save_chat_history`, which overwrites the
record's timestamp with the current time, so the timestamp is a
last-activity recency key rather than an immutable `createdAt`. -/
theorem c2_timestamp_overwritten_on_save (complete : List Content → Option Content)
    (titleOracle : String → Option String) (newId : String) (now : Nat)
    (s : AppState) (cid m : String) (h : List Content) (c : Content)
    (hcid : dictGet s.chat_sessions cid = some h) (hm : ¬ pyStrip m = "")
    (hc : complete (h ++ [Content.mk "user" [MsgPart.mk (pyStrip m)]]) = some c) :
    dictGet ((chat_api true complete titleOracle newId now s (some m) (some cid)).1).chat_timestamps cid
      = some now := by
  rw [chat_api_known_success complete titleOracle newId now s m cid h c hcid hm hc]
  rw [save_chat_history]
  exact dictGet_insert_self _ cid now

theorem c2_timestamp_overwritten_on_save_witness :
    dictGet ((chat_api true (fun _ => some (Content.mk "model" [MsgPart.mk "ok"]))
        (fun _ => some "Title") "b" 99 c2State (some "hi") (some "a")).1).chat_timestamps "a"
      = some 99 :=
  c2_timestamp_overwritten_on_save (fun _ => some (Content.mk "model" [MsgPart.mk "ok"]))
    (fun _ => some "Title") "b" 99 c2State "a" "hi" []
    (Content.mk "model" [MsgPart.mk "ok"]) (by decide) (by decide) (by decide)

/-- C2 counterexample: a record created with timestamp 5 has its stored
timestamp changed to 99 by a successful submit at time 99, refuting the
immutability of the stored timestamp. -/
theorem c2_created_at_immutable_cex :
    dictGet c2State.chat_timestamps "a" = some 5 ∧
    dictGet ((chat_api true (fun _ => some (Content.mk "model" [MsgPart.mk "ok"]))
        (fun _ => some "Title") "b" 99 c2State (some "hi") (some "a")).1).chat_timestamps "a"
      = some 99 := by
  decide

/-- C3: the title is rewritten at most once. For a record whose stored
title differs from the placeholder "New Health Query": (a) any submit
targeting that record leaves the title unchanged, whatever the client
state, the completion outcome and the title oracle (a second title
candidate is never applied); (b) a direct `save_chat_history` with any
candidate-producing oracle also leaves it unchanged. Hence after a first
candidate is applied, a second candidate never replaces it. -/
theorem c3_title_rewritten_at_most_once (s : AppState) (cid t : String)
    (ht : dictGet s.chat_titles cid = some t)
    (hne : ¬ t = "New Health Query")
    (hs : (dictGet s.chat_sessions cid).isSome = true) :
    (∀ (client : Bool) (complete : List Content → Option Content)
        (titleOracle : String → Option String) (newId : String) (now : Nat) (m : Option String),
      dictGet ((chat_api client complete titleOracle newId now s m (some cid)).1).chat_titles cid
        = some t) ∧
    (∀ (titleOracle2 : String → Option String) (now2 : Nat) (history2 : List Content),
      dictGet (save_chat_history true titleOracle2 now2 s cid history2 t).chat_titles cid
        = some t) := by
  have hsave : ∀ (client2 : Bool) (titleOracle2 : String → Option String) (now2 : Nat)
      (history2 : List Content),
      dictGet (save_chat_history client2 titleOracle2 now2 s cid history2 t).chat_titles cid
        = some t := by
    intro client2 titleOracle2 now2 history2
    rw [save_chat_history]
    have : ¬ (t = "New Health Query" ∧ history2.length > 1 ∧
        (history2.getLastD (Content.mk "" [])).role = "model") := fun hh => hne hh.1
    simp only [if_neg this]
    exact dictGet_insert_self _ cid t
  refine ⟨?_, fun o n h2 => hsave true o n h2⟩
  intro client complete titleOracle newId now m
  obtain ⟨h, hh⟩ := Option.isSome_iff_exists.mp hs
  by_cases hm : pyStrip (m.getD "") = ""
  · rw [chat_api_empty client complete titleOracle newId now s m (some cid) hm]
    exact ht
  · rcases m with _ | m'
    · simp [pyStrip] at hm
    · simp only [Option.getD_some] at hm
      cases client
      · rw [chat_api_known_noclient complete titleOracle newId now s m' cid h hh hm]
        exact ht
      · rcases hc : complete (h ++ [Content.mk "user" [MsgPart.mk (pyStrip m')]]) with _ | c
        · rw [chat_api_known_fail complete titleOracle newId now s m' cid h hh hm hc]
          exact ht
        · rw [chat_api_known_success complete titleOracle newId now s m' cid h c hh hm hc]
          have hgetd : dictGetD s.chat_titles cid "New Health Query" = t := by
            rw [dictGetD, ht, Option.getD_some]
          rw [hgetd]
          exact hsave true titleOracle now _

theorem c3_title_rewritten_at_most_once_witness :
    dictGet ((chat_api true (fun _ => some (Content.mk "model" [MsgPart.mk "r"]))
        (fun _ => some "Other Title") "b" 9 c3State (some "hello") (some "a")).1).chat_titles "a"
      = some "My Topic" ∧
    dictGet (save_chat_history true (fun _ => some "Another") 10 c3State "a"
        [] "My Topic").chat_titles "a" = some "My Topic" :=
  ⟨(c3_title_rewritten_at_most_once c3State "a" "My Topic" (by decide) (by decide) (by decide)).1
      true (fun _ => some (Content.mk "model" [MsgPart.mk "r"]))
      (fun _ => some "Other Title") "b" 9 (some "hello"),
    (c3_title_rewritten_at_most_once c3State "a" "My Topic" (by decide) (by decide) (by decide)).2
      (fun _ => some "Another") 10 []⟩

/-- C5 (amended): `new_chat` inserts, under the generated identifier, a
record with empty message sequence, placeholder title and current
timestamp, and returns that identifier. PROVIDED the randomly generated
identifier is not already a key of the store, every existing binding in all
three maps is preserved; the source performs no collision check, so
freshness of the identifier is an assumption on the random draw, not a
guarantee of the code. -/
theorem c5_new_chat_fresh (s : AppState) (newId : String) (now : Nat)
    (hfreshS : dictGet s.chat_sessions newId = none)
    (hfreshT : dictGet s.chat_titles newId = none)
    (hfreshTs : dictGet s.chat_timestamps newId = none) :
    (new_chat s newId now).2 = newId ∧
    dictGet (new_chat s newId now).1.chat_sessions newId = some [] ∧
    dictGet (new_chat s newId now).1.chat_titles newId = some "New Health Query" ∧
    dictGet (new_chat s newId now).1.chat_timestamps newId = some now ∧
    (∀ k : String, (dictGet s.chat_sessions k).isSome →
      dictGet (new_chat s newId now).1.chat_sessions k = dictGet s.chat_sessions k) ∧
    (∀ k : String, (dictGet s.chat_titles k).isSome →
      dictGet (new_chat s newId now).1.chat_titles k = dictGet s.chat_titles k) ∧
    (∀ k : String, (dictGet s.chat_timestamps k).isSome →
      dictGet (new_chat s newId now).1.chat_timestamps k = dictGet s.chat_timestamps k) := by
  have hne : ∀ {α : Type} (d : Dict α) (k : String), dictGet d k = none →
      ∀ k' : String, (dictGet d k').isSome → ¬ k' = k := by
    intro α d k hk k' hk' he
    subst he
    rw [hk] at hk'
    simp at hk'
  refine ⟨rfl, ?_, ?_, ?_, ?_, ?_, ?_⟩
  · exact dictGet_insert_self _ newId []
  · exact dictGet_insert_self _ newId _
  · exact dictGet_insert_self _ newId now
  · intro k hk
    exact dictGet_insert_ne _ newId _ k (hne s.chat_sessions newId hfreshS k hk)
  · intro k hk
    exact dictGet_insert_ne _ newId _ k (hne s.chat_titles newId hfreshT k hk)
  · intro k hk
    exact dictGet_insert_ne _ newId _ k (hne s.chat_timestamps newId hfreshTs k hk)

theorem c5_new_chat_fresh_witness :
    (new_chat c5WitState "zZzZzZzZzZ" 9).2 = "zZzZzZzZzZ" ∧
    dictGet (new_chat c5WitState "zZzZzZzZzZ" 9).1.chat_sessions "zZzZzZzZzZ" = some [] ∧
    dictGet (new_chat c5WitState "zZzZzZzZzZ" 9).1.chat_titles "zZzZzZzZzZ"
      = some "New Health Query" ∧
    dictGet (new_chat c5WitState "zZzZzZzZzZ" 9).1.chat_timestamps "zZzZzZzZzZ" = some 9 ∧
    (∀ k : String, (dictGet c5WitState.chat_sessions k).isSome →
      dictGet (new_chat c5WitState "zZzZzZzZzZ" 9).1.chat_sessions k
        = dictGet c5WitState.chat_sessions k) ∧
    (∀ k : String, (dictGet c5WitState.chat_titles k).isSome →
      dictGet (new_chat c5WitState "zZzZzZzZzZ" 9).1.chat_titles k
        = dictGet c5WitState.chat_titles k) ∧
    (∀ k : String, (dictGet c5WitState.chat_timestamps k).isSome →
      dictGet (new_chat c5WitState "zZzZzZzZzZ" 9).1.chat_timestamps k
        = dictGet c5WitState.chat_timestamps k) :=
  c5_new_chat_fresh c5WitState "zZzZzZzZzZ" 9 (by decide) (by decide) (by decide)

/-- C5 counterexample: "aaaaaaaaaa" is a possible output of
`generate_chat_id` (10 alphanumeric characters) yet collides with an
existing key; `new_chat` then returns the colliding identifier and
overwrites the existing record (its messages become empty and its title
reverts to the placeholder), refuting the no-collision guarantee. -/
theorem c5_new_chat_fresh_cex :
    dictGet c5CexState.chat_sessions "aaaaaaaaaa"
        = some [Content.mk "user" [MsgPart.mk "hello"]] ∧
    (new_chat c5CexState "aaaaaaaaaa" 9).2 = "aaaaaaaaaa" ∧
    dictGet (new_chat c5CexState "aaaaaaaaaa" 9).1.chat_sessions "aaaaaaaaaa" = some [] ∧
    dictGet (new_chat c5CexState "aaaaaaaaaa" 9).1.chat_titles "aaaaaaaaaa"
        = some "New Health Query" ∧
    (new_chat c5CexState "aaaaaaaaaa" 9).1.chat_sessions.length = 1 := by
  decide

/-- C6 (amended): the sidebar listing returns at most 10 entries and they
are sorted by the stored timestamp in descending order (most recent
first); the tie-break between equal timestamps is the insertion order of
`chat_titles` (Python's stable sort), not any function of the
identifiers. -/
theorem c6_listing_sorted (s : AppState) :
    (get_recent_chats s).length ≤ 10 ∧
    (get_recent_chats s).Pairwise tsGE := by
  constructor
  · rw [get_recent_chats]
    exact List.length_take_le 10 _
  · rw [get_recent_chats]
    exact (sortByTsDesc_pairwise _).sublist (List.take_sublist 10 _)

/-- C6 counterexample: two stores holding exactly the same records (the
three maps are permutations of each other, timestamps all equal) produce
the two opposite listings, so the order of equal-timestamp records is the
dict insertion order and cannot be a deterministic tie-break on the
identifiers. -/
theorem c6_listing_sorted_cex :
    List.Perm c6StateA.chat_titles c6StateB.chat_titles ∧
    List.Perm c6StateA.chat_timestamps c6StateB.chat_timestamps ∧
    List.Perm c6StateA.chat_sessions c6StateB.chat_sessions ∧
    get_recent_chats c6StateA = [RecentChat.mk "b" "T" 7, RecentChat.mk "a" "U" 7] ∧
    get_recent_chats c6StateB = [RecentChat.mk "a" "U" 7, RecentChat.mk "b" "T" 7] := by
  decide

/-- C8 (amended): the listing operation is total (it cannot raise) and a
missing timestamp is repaired on read with 0, the minimum representable
value, so such a record is still listed (whenever the store is within the
display limit); but a chat id that is present in the session map while
missing from the title map is NOT repaired with the placeholder title — it
is silently omitted from the listing, because `get_recent_chats` iterates
over `chat_titles` only. -/
theorem c8_listing_tolerates_missing (s : AppState) (cid t : String)
    (hmem : (cid, t) ∈ s.chat_titles)
    (hts : dictGet s.chat_timestamps cid = none)
    (hlim : s.chat_titles.length ≤ 10) :
    RecentChat.mk cid t 0 ∈ get_recent_chats s ∧
    (∀ cid' : String, dictGet s.chat_titles cid' = none →
      ∀ e ∈ get_recent_chats s, ¬ e.id = cid') := by
  constructor
  · rw [get_recent_chats]
    have hlen : (sortByTsDesc (s.chat_titles.map
        (fun p => RecentChat.mk p.1 p.2 (dictGetD s.chat_timestamps p.1 0)))).length ≤ 10 := by
      rw [length_sortByTsDesc, List.length_map]
      exact hlim
    rw [List.take_of_length_le hlen, mem_sortByTsDesc]
    have hmm := List.mem_map_of_mem
      (fun p : String × String => RecentChat.mk p.1 p.2 (dictGetD s.chat_timestamps p.1 0)) hmem
    simpa [dictGetD, hts] using hmm
  · intro cid' hnone e he hid
    rw [get_recent_chats] at he
    have hs' := List.mem_of_mem_take he
    rw [mem_sortByTsDesc] at hs'
    obtain ⟨p, hp, hpe⟩ := List.mem_map.mp hs'
    have hsome : (dictGet s.chat_titles p.1).isSome :=
      isSome_dictGet_of_mem s.chat_titles p.1 p.2 hp
    have hp1 : p.1 = cid' := by
      rw [← hid, ← hpe]
    rw [hp1, hnone] at hsome
    simp at hsome

theorem c8_listing_tolerates_missing_witness :
    RecentChat.mk "a" "T" 0 ∈ get_recent_chats c8WitState :=
  (c8_listing_tolerates_missing c8WitState "a" "T" (by decide) (by decide) (by decide)).1

/-- C8 counterexample: a chat id present in the session map but missing
from the title map does not appear in the listing at all — the entry is
not repaired with the placeholder title, refuting "the record still
appears in the listing". -/
theorem c8_listing_tolerates_missing_cex :
    dictGet c8CexState.chat_sessions "a" = some [] ∧
    dictGet c8CexState.chat_titles "a" = none ∧
    get_recent_chats c8CexState = [] := by
  decide

theorem head?_take10 (l : List RecentChat) : (l.take 10).head? = l.head? := by
  cases l <;> simp

theorem sorted_head_max (x : RecentChat) (xs : List RecentChat)
    (h : (x :: xs).Pairwise tsGE) : ∀ z ∈ x :: xs, z.timestamp ≤ x.timestamp := by
  intro z hz
  rcases List.mem_cons.mp hz with rfl | hz
  · exact le_refl _
  · exact (List.pairwise_cons.mp h).1 z hz

theorem delete_chat_in (s : AppState) (cid : String)
    (hin : dictContains s.chat_sessions cid = true) :
    (delete_chat s cid).1 = eraseAll s cid ∧
    ((delete_chat s cid).2 = match (get_recent_chats (eraseAll s cid)).head? with
      | some e => DeleteResult.success (some e.id)
      | none => DeleteResult.success none) := by
  rw [delete_chat]
  simp only [hin, if_true, eraseAll]
  rcases (get_recent_chats _).head? with _ | e <;> simp

/-- C9: deleting an existing identifier removes it from the session map
and from all subsequent sidebar listings, and the response directs the
caller either to a fresh chat (when no record remains in the listing) or
to a listed chat whose timestamp is maximal among all remaining records
(the most recent remaining one); deleting a non-existent identifier
returns the non-fatal not-found result and leaves the store completely
unchanged. -/
theorem c9_delete_spec (s : AppState) (cid : String)
    (hwfS : DictWF s.chat_sessions) (hwfT : DictWF s.chat_titles) :
    ((dictGet s.chat_sessions cid).isSome = true →
      (∀ e ∈ get_recent_chats (delete_chat s cid).1, ¬ e.id = cid) ∧
      dictGet ((delete_chat s cid).1).chat_sessions cid = none ∧
      dictGet ((delete_chat s cid).1).chat_titles cid = none ∧
      ((get_recent_chats (delete_chat s cid).1 = [] ∧
          (delete_chat s cid).2 = DeleteResult.success none) ∨
        (∃ e : RecentChat, (get_recent_chats (delete_chat s cid).1).head? = some e ∧
          (delete_chat s cid).2 = DeleteResult.success (some e.id) ∧
          ∀ p ∈ ((delete_chat s cid).1).chat_titles,
            dictGetD ((delete_chat s cid).1).chat_timestamps p.1 0 ≤ e.timestamp))) ∧
    ((dictGet s.chat_sessions cid).isSome = false →
      delete_chat s cid = (s, DeleteResult.notFound)) := by
  constructor
  · intro hin
    obtain ⟨hst, hres⟩ := delete_chat_in s cid hin
    rw [hst, hres]
    have hTnone : dictGet (eraseAll s cid).chat_titles cid = none := by
      rw [eraseAll]
      by_cases hc : dictContains s.chat_titles cid = true
      · simp only [hc, if_true]
        exact dictGet_erase_self s.chat_titles cid hwfT
      · simp only [hc, if_false]
        rw [dictContains] at hc
        exact Option.not_isSome_iff_eq_none.mp (by simpa using hc)
    refine ⟨?_, ?_, hTnone, ?_⟩
    · intro e he hid
      rw [get_recent_chats] at he
      have hs' := List.mem_of_mem_take he
      rw [mem_sortByTsDesc] at hs'
      obtain ⟨p, hp, hpe⟩ := List.mem_map.mp hs'
      have hsome : (dictGet (eraseAll s cid).chat_titles p.1).isSome :=
        isSome_dictGet_of_mem _ p.1 p.2 hp
      have hp1 : p.1 = cid := by
        rw [← hid, ← hpe]
      rw [hp1, hTnone] at hsome
      simp at hsome
    · rw [eraseAll]
      exact dictGet_erase_self s.chat_sessions cid hwfS
    · rcases hh : (get_recent_chats (eraseAll s cid)).head? with _ | e
      · left
        exact ⟨List.head?_eq_none_iff.mp hh, rfl⟩
      · right
        refine ⟨e, rfl, rfl, ?_⟩
        intro p hp
        have hsorted := sortByTsDesc_pairwise ((eraseAll s cid).chat_titles.map
          (fun q => RecentChat.mk q.1 q.2 (dictGetD (eraseAll s cid).chat_timestamps q.1 0)))
        have hhd : (sortByTsDesc ((eraseAll s cid).chat_titles.map
            (fun q => RecentChat.mk q.1 q.2
              (dictGetD (eraseAll s cid).chat_timestamps q.1 0)))).head? = some e := by
          rw [get_recent_chats] at hh
          rw [← head?_take10]
          exact hh
        rcases hsplit : sortByTsDesc ((eraseAll s cid).chat_titles.map
            (fun q => RecentChat.mk q.1 q.2 (dictGetD (eraseAll s cid).chat_timestamps q.1 0)))
          with _ | ⟨x, xs⟩
        · rw [hsplit] at hhd
          simp at hhd
        · rw [hsplit] at hhd
          simp only [List.head?_cons, Option.some.injEq] at hhd
          subst hhd
          have hmem : RecentChat.mk p.1 p.2 (dictGetD (eraseAll s cid).chat_timestamps p.1 0)
              ∈ x :: xs := by
            rw [← hsplit, mem_sortByTsDesc]
            exact List.mem_map_of_mem _ hp
          have hmax := sorted_head_max x xs (hsplit ▸ hsorted)
            (RecentChat.mk p.1 p.2 (dictGetD (eraseAll s cid).chat_timestamps p.1 0)) hmem
          simpa using hmax
  · intro hout
    rw [delete_chat]
    simp only [dictContains, hout, Bool.false_eq_true, if_neg]
    simp

theorem c9_delete_spec_witness :
    (∀ e ∈ get_recent_chats (delete_chat c9WitState "a").1, ¬ e.id = "a") ∧
    dictGet ((delete_chat c9WitState "a").1).chat_sessions "a" = none ∧
    dictGet ((delete_chat c9WitState "a").1).chat_titles "a" = none ∧
    ((get_recent_chats (delete_chat c9WitState "a").1 = [] ∧
        (delete_chat c9WitState "a").2 = DeleteResult.success none) ∨
      (∃ e : RecentChat, (get_recent_chats (delete_chat c9WitState "a").1).head? = some e ∧
        (delete_chat c9WitState "a").2 = DeleteResult.success (some e.id) ∧
        ∀ p ∈ ((delete_chat c9WitState "a").1).chat_titles,
          dictGetD ((delete_chat c9WitState "a").1).chat_timestamps p.1 0 ≤ e.timestamp)) :=
  (c9_delete_spec c9WitState "a" (by rw [DictWF]; decide) (by rw [DictWF]; decide)).1 (by decide)

theorem chat_api_success_lookup (complete : List Content → Option Content)
    (titleOracle : String → Option String) (newId : String) (now : Nat)
    (s : AppState) (m cid : String) (h : List Content) (c : Content)
    (hcid : dictGet s.chat_sessions cid = some h) (hm : ¬ pyStrip m = "")
    (hc : complete (h ++ [mkUserTurn (pyStrip m)]) = some c) :
    dictGet ((chat_api true complete titleOracle newId now s
      (some m) (some cid)).1).chat_sessions cid
        = some (h ++ [mkUserTurn (pyStrip m), c]) := by
  rw [mkUserTurn] at hc
  rw [chat_api_known_success complete titleOracle newId now s m cid h c hcid hm hc]
  simp [save_chat_history, mkUserTurn, dictGet_insert_self]

theorem runSubmits_lookup (complete : List Content → Option Content)
    (titleOracle : String → Option String) (newId : String) (now : Nat) (cid : String) :
    ∀ (ms : List String) (acc : List Content) (s : AppState) (h : List Content),
      dictGet s.chat_sessions cid = some acc →
      (∀ m ∈ ms, ¬ pyStrip m = "") →
      transcript complete acc ms = some h →
      dictGet (runSubmits complete titleOracle newId now cid s ms).chat_sessions cid
        = some h := by
  intro ms
  induction ms with
  | nil =>
    intro acc s h hacc hms htr
    rw [transcript] at htr
    cases htr
    exact hacc
  | cons m ms ih =>
    intro acc s h hacc hms htr
    rw [transcript] at htr
    rcases hc : complete (acc ++ [mkUserTurn (pyStrip m)]) with _ | c
    · rw [hc] at htr
      simp at htr
    · rw [hc] at htr
      rw [runSubmits]
      have hm : ¬ pyStrip m = "" := hms m (by simp)
      have hlook := chat_api_success_lookup complete titleOracle newId now s m cid acc c
        hacc hm hc
      exact ih (acc ++ [mkUserTurn (pyStrip m), c]) _ h hlook
        (fun x hx => hms x (by simp [hx])) htr

theorem transcript_shape (complete : List Content → Option Content)
    (hroles : ∀ (hist : List Content) (c : Content), complete hist = some c →
      c.role = "model") :
    ∀ (ms : List String) (acc h : List Content),
      transcript complete acc ms = some h →
      ∃ rest : List Content, h = acc ++ rest ∧ pairsMatch ms rest = true ∧
        rest.length = 2 * ms.length := by
  intro ms
  induction ms with
  | nil =>
    intro acc h htr
    rw [transcript] at htr
    cases htr
    exact ⟨[], by simp, rfl, by simp⟩
  | cons m ms ih =>
    intro acc h htr
    rw [transcript] at htr
    rcases hc : complete (acc ++ [mkUserTurn (pyStrip m)]) with _ | c
    · rw [hc] at htr
      simp at htr
    · rw [hc] at htr
      obtain ⟨rest, hrest, hpm, hlen⟩ := ih (acc ++ [mkUserTurn (pyStrip m), c]) h htr
      refine ⟨mkUserTurn (pyStrip m) :: c :: rest, ?_, ?_, ?_⟩
      · rw [hrest]
        simp
      · simp [pairsMatch, hpm, hroles _ c hc]
      · simp only [List.length_cons]
        omega

theorem pairsMatch_rolesAlternate :
    ∀ (ms : List String) (h : List Content),
      pairsMatch ms h = true → rolesAlternate h = true := by
  intro ms
  induction ms with
  | nil =>
    intro h hpm
    cases h with
    | nil => rfl
    | cons c cs => simp [pairsMatch] at hpm
  | cons m ms ih =>
    intro h hpm
    match h with
    | [] => simp [pairsMatch] at hpm
    | [u] => simp [pairsMatch] at hpm
    | u :: c :: rest =>
      simp only [pairsMatch, Bool.and_eq_true, beq_iff_eq] at hpm
      obtain ⟨⟨hu, hcrole⟩, hrest⟩ := hpm
      simp only [rolesAlternate, Bool.and_eq_true, beq_iff_eq]
      refine ⟨⟨?_, hcrole⟩, ih rest hrest⟩
      rw [hu]
      rfl

/-- C7: starting from a freshly created record (empty message sequence), N
submits that all succeed produce a stored history of length 2N that is
exactly the interleaving of the trimmed user texts with the completion
responses: roles alternate starting with a user turn, and each pair is the
submitted user text followed by the model-role response. -/
theorem c7_round_trip (complete : List Content → Option Content)
    (titleOracle : String → Option String) (newId : String) (now : Nat)
    (s : AppState) (cid : String) (ms : List String) (h : List Content)
    (hcid : dictGet s.chat_sessions cid = some [])
    (hms : ∀ m ∈ ms, ¬ pyStrip m = "")
    (hroles : ∀ (hist : List Content) (c : Content), complete hist = some c →
      c.role = "model")
    (htr : transcript complete [] ms = some h) :
    dictGet (runSubmits complete titleOracle newId now cid s ms).chat_sessions cid = some h ∧
    h.length = 2 * ms.length ∧
    rolesAlternate h = true ∧
    pairsMatch ms h = true := by
  obtain ⟨rest, hrest, hpm, hlen⟩ := transcript_shape complete hroles ms [] h htr
  rw [List.nil_append] at hrest
  rw [← hrest] at hpm hlen
  exact ⟨runSubmits_lookup complete titleOracle newId now cid ms [] s h hcid hms htr,
    hlen, pairsMatch_rolesAlternate ms h hpm, hpm⟩

theorem c7_round_trip_witness :
    dictGet (runSubmits (fun _ => some (Content.mk "model" [MsgPart.mk "resp"]))
        (fun _ => some "T") "b" 4 "c" c7State ["hi", "more"]).chat_sessions "c"
      = some [mkUserTurn "hi", Content.mk "model" [MsgPart.mk "resp"],
          mkUserTurn "more", Content.mk "model" [MsgPart.mk "resp"]] ∧
    ([mkUserTurn "hi", Content.mk "model" [MsgPart.mk "resp"],
        mkUserTurn "more", Content.mk "model" [MsgPart.mk "resp"]] : List Content).length
      = 2 * (["hi", "more"] : List String).length ∧
    rolesAlternate [mkUserTurn "hi", Content.mk "model" [MsgPart.mk "resp"],
        mkUserTurn "more", Content.mk "model" [MsgPart.mk "resp"]] = true ∧
    pairsMatch ["hi", "more"] [mkUserTurn "hi", Content.mk "model" [MsgPart.mk "resp"],
        mkUserTurn "more", Content.mk "model" [MsgPart.mk "resp"]] = true :=
  c7_round_trip (fun _ => some (Content.mk "model" [MsgPart.mk "resp"]))
    (fun _ => some "T") "b" 4 c7State "c" ["hi", "more"]
    [mkUserTurn "hi", Content.mk "model" [MsgPart.mk "resp"],
      mkUserTurn "more", Content.mk "model" [MsgPart.mk "resp"]]
    (by decide) (by decide) (fun hist c hc => by cases hc; rfl) (by decide)

theorem StoreInv_insert_all (s : AppState) (k : String) (v : List Content) (t : String) (n : Nat)
    (h : StoreInv s) :
    StoreInv (AppState.mk (dictInsert s.chat_sessions k v) (dictInsert s.chat_titles k t)
      (dictInsert s.chat_timestamps k n)) := by
  obtain ⟨⟨w1, w2, w3⟩, hk⟩ := h
  refine ⟨⟨DictWF_insert _ k v w1, DictWF_insert _ k t w2, DictWF_insert _ k n w3⟩, ?_⟩
  intro cid
  constructor
  · rw [isSome_dictGet_insert, isSome_dictGet_insert, (hk cid).1]
  · rw [isSome_dictGet_insert, isSome_dictGet_insert, (hk cid).2]

theorem StoreInv_insert_sessions (s : AppState) (k : String) (v : List Content)
    (hk : (dictGet s.chat_sessions k).isSome) (h : StoreInv s) :
    StoreInv (AppState.mk (dictInsert s.chat_sessions k v) s.chat_titles s.chat_timestamps) := by
  obtain ⟨⟨w1, w2, w3⟩, hkk⟩ := h
  refine ⟨⟨DictWF_insert _ k v w1, w2, w3⟩, ?_⟩
  intro cid
  constructor
  · rw [isSome_dictGet_insert]
    constructor
    · rintro (rfl | hs)
      · exact (hkk cid).1.mp hk
      · exact (hkk cid).1.mp hs
    · intro ht
      exact Or.inr ((hkk cid).1.mpr ht)
  · rw [isSome_dictGet_insert]
    constructor
    · rintro (rfl | hs)
      · exact (hkk cid).2.mp hk
      · exact (hkk cid).2.mp hs
    · intro ht
      exact Or.inr ((hkk cid).2.mpr ht)

theorem StoreInv_save (client : Bool) (titleOracle : String → Option String) (now : Nat)
    (s : AppState) (cid : String) (history : List Content) (title : String)
    (h : StoreInv s) : StoreInv (save_chat_history client titleOracle now s cid history title) := by
  rw [save_chat_history]
  split
  · exact StoreInv_insert_all s cid history _ now h
  · exact StoreInv_insert_all s cid history _ now h

theorem StoreInv_chat_api (client : Bool) (complete : List Content → Option Content)
    (titleOracle : String → Option String) (newId : String) (now : Nat)
    (s : AppState) (message chat_id_in : Option String) (h : StoreInv s) :
    StoreInv (chat_api client complete titleOracle newId now s message chat_id_in).1 := by
  by_cases hm : pyStrip (message.getD "") = ""
  · rw [chat_api_empty client complete titleOracle newId now s message chat_id_in hm]
    exact h
  · have hknown : ∀ (s' : AppState) (cid : String) (hist : List Content) (m' : String),
        ¬ pyStrip m' = "" →
        dictGet s'.chat_sessions cid = some hist → StoreInv s' →
        StoreInv (chat_api client complete titleOracle newId now s' (some m') (some cid)).1 := by
      intro s' cid hist m' hm' hcid hinv
      have hsome : (dictGet s'.chat_sessions cid).isSome := by
        rw [hcid]
        rfl
      cases client
      · rw [chat_api_known_noclient complete titleOracle newId now s' m' cid hist hcid hm']
        exact StoreInv_insert_sessions s' cid _ hsome hinv
      · rcases hc : complete (hist ++ [Content.mk "user" [MsgPart.mk (pyStrip m')]])
          with _ | c
        · rw [chat_api_known_fail complete titleOracle newId now s' m' cid hist hcid hm' hc]
          have h1 := StoreInv_insert_sessions s' cid
            (hist ++ [Content.mk "user" [MsgPart.mk (pyStrip m')]]) hsome hinv
          exact StoreInv_insert_sessions
            (AppState.mk (dictInsert s'.chat_sessions cid
              (hist ++ [Content.mk "user" [MsgPart.mk (pyStrip m')]]))
              s'.chat_titles s'.chat_timestamps) cid hist
            (by rw [dictGet_insert_self]; rfl) h1
        · rw [chat_api_known_success complete titleOracle newId now s' m' cid hist c hcid hm' hc]
          apply StoreInv_save
          have h1 := StoreInv_insert_sessions s' cid
            (hist ++ [Content.mk "user" [MsgPart.mk (pyStrip m')]]) hsome hinv
          exact StoreInv_insert_sessions
            (AppState.mk (dictInsert s'.chat_sessions cid
              (hist ++ [Content.mk "user" [MsgPart.mk (pyStrip m')]]))
              s'.chat_titles s'.chat_timestamps) cid
            ((hist ++ [Content.mk "user" [MsgPart.mk (pyStrip m')]]) ++ [c])
            (by rw [dictGet_insert_self]; rfl) h1
    rcases message with _ | m'
    · exfalso
      exact hm rfl
    · simp only [Option.getD_some] at hm
      have hfreshInv : StoreInv (AppState.mk (dictInsert s.chat_sessions newId [])
          (dictInsert s.chat_titles newId "New Health Query")
          (dictInsert s.chat_timestamps newId now)) :=
        StoreInv_insert_all s newId [] "New Health Query" now h
      have hfreshGet : dictGet (AppState.mk (dictInsert s.chat_sessions newId [])
          (dictInsert s.chat_titles newId "New Health Query")
          (dictInsert s.chat_timestamps newId now)).chat_sessions newId = some [] :=
        dictGet_insert_self s.chat_sessions newId []
      rcases chat_id_in with _ | cid
      · rw [chat_api_unknown_none client complete titleOracle newId now s m' hm]
        exact hknown _ newId [] m' hm hfreshGet hfreshInv
      · rcases hcs : dictGet s.chat_sessions cid with _ | hist
        · rw [chat_api_unknown_some client complete titleOracle newId now s m' cid hm hcs]
          exact hknown _ newId [] m' hm hfreshGet hfreshInv
        · exact hknown s cid hist m' hm hcs h

theorem StoreInv_delete (s : AppState) (cid : String) (h : StoreInv s) :
    StoreInv (delete_chat s cid).1 := by
  by_cases hin : dictContains s.chat_sessions cid = true
  · rw [(delete_chat_in s cid hin).1]
    obtain ⟨⟨w1, w2, w3⟩, hk⟩ := h
    have hT : (dictGet s.chat_titles cid).isSome = true := (hk cid).1.mp hin
    have hTs : (dictGet s.chat_timestamps cid).isSome = true := (hk cid).2.mp hin
    rw [eraseAll]
    simp only [dictContains, hT, hTs, if_true]
    refine ⟨⟨DictWF_erase _ _ w1, DictWF_erase _ _ w2, DictWF_erase _ _ w3⟩, ?_⟩
    intro k
    by_cases hkc : k = cid
    · subst hkc
      rw [dictGet_erase_self _ _ w1, dictGet_erase_self _ _ w2, dictGet_erase_self _ _ w3]
      simp
    · rw [dictGet_erase_ne _ _ _ hkc, dictGet_erase_ne _ _ _ hkc, dictGet_erase_ne _ _ _ hkc]
      exact hk k
  · have hfalse : dictContains s.chat_sessions cid = false := by
      simpa using hin
    rw [delete_chat]
    simp only [hfalse, Bool.false_eq_true, if_false]
    exact h

theorem reachable_inv (s : AppState) (h : Reachable s) : StoreInv s := by
  induction h with
  | init =>
    refine ⟨⟨?_, ?_, ?_⟩, ?_⟩
    · rw [DictWF]
      exact List.nodup_nil
    · rw [DictWF]
      exact List.nodup_nil
    · rw [DictWF]
      exact List.nodup_nil
    · intro cid
      simp [emptyState, dictGet]
  | step_new s' newId now _ ih =>
    exact StoreInv_insert_all s' newId [] "New Health Query" now ih
  | step_chat s' client complete titleOracle newId now message chat_id_in _ ih =>
    exact StoreInv_chat_api client complete titleOracle newId now s' message chat_id_in ih
  | step_delete s' cid _ ih =>
    exact StoreInv_delete s' cid ih

/-- C10: in every state reachable through the public route handlers, the
three storage maps are synchronized on session keys — every chat id with a
session entry also has a title entry and a timestamp entry — and deleting
any id leaves a state in which the id is absent from all three maps. -/
theorem c10_cross_map_consistency (s : AppState) (h : Reachable s) :
    (∀ cid : String, (dictGet s.chat_sessions cid).isSome →
      (dictGet s.chat_titles cid).isSome ∧ (dictGet s.chat_timestamps cid).isSome) ∧
    (∀ cid : String,
      dictGet ((delete_chat s cid).1).chat_sessions cid = none ∧
      dictGet ((delete_chat s cid).1).chat_titles cid = none ∧
      dictGet ((delete_chat s cid).1).chat_timestamps cid = none) := by
  obtain ⟨⟨w1, w2, w3⟩, hk⟩ := reachable_inv s h
  constructor
  · intro cid hs
    exact ⟨(hk cid).1.mp hs, (hk cid).2.mp hs⟩
  · intro cid
    by_cases hin : dictContains s.chat_sessions cid = true
    · rw [(delete_chat_in s cid hin).1]
      have hT : (dictGet s.chat_titles cid).isSome = true := (hk cid).1.mp hin
      have hTs : (dictGet s.chat_timestamps cid).isSome = true := (hk cid).2.mp hin
      rw [eraseAll]
      simp only [dictContains, hT, hTs, if_true]
      exact ⟨dictGet_erase_self _ _ w1, dictGet_erase_self _ _ w2, dictGet_erase_self _ _ w3⟩
    · have hfalse : dictContains s.chat_sessions cid = false := by
        simpa using hin
      have hsnone : dictGet s.chat_sessions cid = none := by
        rw [dictContains] at hfalse
        exact Option.not_isSome_iff_eq_none.mp (by simp [hfalse])
      have htnone : dictGet s.chat_titles cid = none := by
        rcases ht0 : dictGet s.chat_titles cid with _ | v
        · rfl
        · exfalso
          have hx : (dictGet s.chat_sessions cid).isSome := (hk cid).1.mpr (by rw [ht0]; rfl)
          rw [hsnone] at hx
          simp at hx
      have htsnone : dictGet s.chat_timestamps cid = none := by
        rcases ht0 : dictGet s.chat_timestamps cid with _ | v
        · rfl
        · exfalso
          have hx : (dictGet s.chat_sessions cid).isSome := (hk cid).2.mpr (by rw [ht0]; rfl)
          rw [hsnone] at hx
          simp at hx
      rw [delete_chat]
      simp only [hfalse, Bool.false_eq_true, if_false]
      exact ⟨hsnone, htnone, htsnone⟩

theorem c10_cross_map_consistency_witness :
    (dictGet (new_chat emptyState "a" 1).1.chat_titles "a").isSome ∧
    (dictGet (new_chat emptyState "a" 1).1.chat_timestamps "a").isSome :=
  (c10_cross_map_consistency (new_chat emptyState "a" 1).1
    (Reachable.step_new emptyState "a" 1 Reachable.init)).1 "a" (by decide)
